import Mathlib

/-!
Verification of the buildbuddy digest-addressed cache engine specification.

The repository's visible source is the metrics surface
(`src/server/metrics/metrics.go`); the CAS/AC/streaming-transfer core is
specified in `spec.md` but its code is not under `src/`, so those components
are modelled from the spec (each such definition carries a doc comment
starting `Modelled from the spec:`). Bytes are modelled as `List Nat`,
instance names as `String`.
-/

/-- Modelled from the spec: the error taxonomy of §7 (the CAS/AC/transfer
code is not under `src/`). -/
inductive CacheError where
  | InvalidDigest
  | NotFound
  | DigestMismatch
  | CorruptEntry
  | InvalidOffset
  | MissingCASReference
  | Unavailable
  | PermissionDenied
deriving DecidableEq, Repr

/-- Modelled from the spec: a digest is a content hash plus declared byte
length (§3). The configured hash algorithm is modelled as a deterministic,
collision-free function of the byte sequence (the bytes themselves), which
is the abstraction the spec's integrity guarantees assume. -/
structure Digest where
  hash : List Nat
  size_bytes : Nat
deriving DecidableEq, Repr

/-- Modelled from the spec: `compute(bytes) -> Digest` hashes the full byte
sequence; deterministic, no failure mode (§4.1). -/
def compute (b : List Nat) : Digest :=
  ⟨b, b.length⟩

/-- Modelled from the spec: `is_empty(d)` is true iff `size_bytes == 0`
(§4.1). -/
def Digest.is_empty (d : Digest) : Bool :=
  d.size_bytes == 0

/-- Modelled from the spec: the digest of zero-length content, the
"empty blob" known constant (§3, §4.1). -/
def emptyDigest : Digest :=
  compute []

/-- Modelled from the spec: the CAS state - a mapping from digests to their
bytes, keyed by content digest only (§3 "Cache namespace key"). -/
structure CAS where
  entries : List (Digest × List Nat)
deriving DecidableEq, Repr

/-- The CAS with no stored entries. -/
def CAS.empty : CAS :=
  ⟨[]⟩

/-- Bytes stored for a digest, if any. -/
def CAS.lookup (s : CAS) (d : Digest) : Option (List Nat) :=
  (s.entries.find? (fun e => e.1 == d)).map Prod.snd

/-- Whether an entry for the digest is physically stored. -/
def CAS.contains (s : CAS) (d : Digest) : Bool :=
  (s.lookup d).isSome

/-- Modelled from the spec: a digest counts as present if it is the empty
digest (always present without a backend round trip, §4.1/§4.3) or it is
stored. -/
def CAS.present (s : CAS) (d : Digest) : Bool :=
  d.is_empty || s.contains d

/-- Number of stored entries keyed by a digest. -/
def CAS.countKey (s : CAS) (d : Digest) : Nat :=
  s.entries.countP (fun e => e.1 == d)

/-- Well-formedness of a CAS state reachable through the API: every entry's
key is the digest of its bytes, and keys are unique. -/
def CAS.WF (s : CAS) : Prop :=
  (∀ e ∈ s.entries, compute e.2 = e.1) ∧ (s.entries.map Prod.fst).Nodup

instance (s : CAS) : Decidable s.WF := by
  unfold CAS.WF; infer_instance

/-- Modelled from the spec: `put(digest, bytes, instance)` (§4.3). Computes
the digest of `bytes` and fails with `DigestMismatch` if it does not equal
the caller-declared digest; writing an already-present digest is a no-op
success. Returns the operation outcome together with the post-state. -/
def CAS.put (s : CAS) (d : Digest) (b : List Nat) (_inst : String) :
    Except CacheError Unit × CAS :=
  if compute b = d then
    if s.contains d then (.ok (), s)
    else (.ok (), ⟨(d, b) :: s.entries⟩)
  else (.error .DigestMismatch, s)

/-- Modelled from the spec: `get(digest, instance)` (§4.3). The empty digest
resolves to zero bytes without a backend call; otherwise the backend is read
(`NotFound` if absent, `CorruptEntry` on a stored-length mismatch). The
second component counts backend (Blobstore) calls made. -/
def CAS.get (s : CAS) (d : Digest) (_inst : String) :
    Except CacheError (List Nat) × Nat :=
  if d.is_empty then (.ok [], 0)
  else
    match s.lookup d with
    | none => (.error .NotFound, 1)
    | some b => if b.length = d.size_bytes then (.ok b, 1) else (.error .CorruptEntry, 1)

/-- Modelled from the spec: `find_missing(digests, instance)` (§4.3) returns
the subset of queried digests not currently stored, treating the empty
digest as always present without a backend call. The second component
counts backend existence checks made. -/
def CAS.find_missing (s : CAS) (ds : List Digest) (_inst : String) :
    List Digest × Nat :=
  let toCheck := ds.filter (fun d => !d.is_empty)
  (toCheck.filter (fun d => !s.contains d), toCheck.length)

/-- Modelled from the spec: the Action Result record (§3) - action digest,
ordered output file digests, exit code, stdout/stderr digests. -/
structure ActionResult where
  digest : Digest
  output_file_digests : List (String × Digest)
  exit_code : Int
  stdout_digest : Digest
  stderr_digest : Digest
deriving DecidableEq, Repr

/-- Modelled from the spec: the Action Cache state, keyed by
`(instance_name, action_digest)` (§3, §4.4). -/
structure AC where
  entries : List ((String × Digest) × ActionResult)
deriving DecidableEq, Repr

/-- The AC with no stored records. -/
def AC.empty : AC :=
  ⟨[]⟩

/-- Modelled from the spec: `get_result(action_digest, instance)` (§4.4);
`NotFound` on a miss. -/
def AC.get_result (s : AC) (d : Digest) (inst : String) :
    Except CacheError ActionResult :=
  match s.entries.find? (fun e => e.1 == (inst, d)) with
  | none => .error .NotFound
  | some e => .ok e.2

/-- Modelled from the spec: `set_result(action_digest, result, instance)`
(§4.4). When validation is enabled and some referenced output-file digest is
not present in CAS, fails with `MissingCASReference`; otherwise overwrites
any prior record for the same `(instance, action_digest)` key. Returns the
outcome together with the post AC and CAS states. -/
def AC.set_result (s : AC) (cas : CAS) (d : Digest) (r : ActionResult)
    (inst : String) (validate : Bool) :
    Except CacheError Unit × AC × CAS :=
  if validate && r.output_file_digests.any (fun p => !(cas.present p.2)) then
    (.error .MissingCASReference, s, cas)
  else
    (.ok (),
     ⟨((inst, d), r) :: s.entries.filter (fun e => !(e.1 == (inst, d)))⟩,
     cas)

/-- Modelled from the spec: an in-progress resumable upload session (§3,
§4.5) - target digest and instance from the resource name, the bytes
accumulated so far, and the committed size. -/
structure UploadSession where
  target : Digest
  inst : String
  buffer : List Nat
  committed_size : Nat
deriving DecidableEq, Repr

/-- Modelled from the spec: a fresh session with `committed_size` 0 (§4.5). -/
def newSession (d : Digest) (inst : String) : UploadSession :=
  ⟨d, inst, [], 0⟩

/-- Modelled from the spec: one upload chunk `{offset, data, finish}`
(§4.5). -/
structure Chunk where
  offset : Nat
  data : List Nat
  finish : Bool
deriving DecidableEq, Repr

/-- Modelled from the spec: applying one chunk to a session (§4.5). An
offset different from the current committed size fails with `InvalidOffset`
and changes nothing; otherwise the data is appended, and a `finish` chunk
commits the assembled bytes through `CAS.put` (inheriting its
`DigestMismatch` guarantee). -/
def applyChunk (cas : CAS) (s : UploadSession) (c : Chunk) :
    Except CacheError Unit × UploadSession × CAS :=
  if c.offset ≠ s.committed_size then (.error .InvalidOffset, s, cas)
  else
    let s' : UploadSession :=
      ⟨s.target, s.inst, s.buffer ++ c.data, s.committed_size + c.data.length⟩
    if c.finish then
      let (r, cas') := cas.put s.target (s.buffer ++ c.data) s.inst
      (r, s', cas')
    else (.ok (), s', cas)

/-- Modelled from the spec: applying an ordered sequence of chunks,
stopping at the first failure (§4.5). -/
def uploadChunks (cas : CAS) (s : UploadSession) :
    List Chunk → Except CacheError Unit × UploadSession × CAS
  | [] => (.ok (), s, cas)
  | c :: rest =>
    match applyChunk cas s c with
    | (.ok _, s', cas') => uploadChunks cas' s' rest
    | (.error e, s', cas') => (.error e, s', cas')

/-- A chunking of a byte sequence into consecutive chunks starting at a
given offset, with `finish` set on the last chunk. -/
def mkChunksFrom (off : Nat) : List (List Nat) → List Chunk
  | [] => []
  | [p] => [⟨off, p, true⟩]
  | p :: q :: rest => ⟨off, p, false⟩ :: mkChunksFrom (off + p.length) (q :: rest)

/-- Label constant from `src/server/metrics/metrics.go`: gRPC status code. -/
def StatusLabel : String :=
  "status"

/-- Label constant from `metrics.go`: `action` for action cache, `cas` for
content-addressable storage. -/
def CacheTypeLabel : String :=
  "cache_type"

/-- Label constant from `metrics.go`: `hit`, `miss`, or `upload`. -/
def CacheEventTypeLabel : String :=
  "cache_event_type"

/-- Label constant from `metrics.go`: `gcs`, `aws_s3`, or `disk`. -/
def BlobstoreTypeLabel : String :=
  "blobstore_type"

/-- A Prometheus metric vector as declared in `metrics.go`: namespace,
subsystem, name, and the label dimensions it is partitioned by. -/
structure MetricVec where
  nspace : String
  subsystem : String
  name : String
  labels : List String
deriving DecidableEq, Repr

/-- `metrics.go` `CacheEvents`: counter of cache events handled, labelled by
cache type and cache event type. -/
def CacheEvents : MetricVec :=
  ⟨"buildbuddy", "remote_cache", "events", [CacheTypeLabel, CacheEventTypeLabel]⟩

/-- `metrics.go` `CacheDownloadSizeBytes`: per-download size histogram,
labelled by cache type only. -/
def CacheDownloadSizeBytes : MetricVec :=
  ⟨"buildbuddy", "remote_cache", "download_size_bytes", [CacheTypeLabel]⟩

/-- `metrics.go` `CacheDownloadDurationUsec`: per-download duration
histogram, labelled by cache type only. -/
def CacheDownloadDurationUsec : MetricVec :=
  ⟨"buildbuddy", "remote_cache", "download_duration_usec", [CacheTypeLabel]⟩

/-- `metrics.go` `CacheUploadSizeBytes`: per-upload size histogram, labelled
by cache type only. -/
def CacheUploadSizeBytes : MetricVec :=
  ⟨"buildbuddy", "remote_cache", "upload_size_bytes", [CacheTypeLabel]⟩

/-- `metrics.go` `CacheUploadDurationUsec`: per-upload duration histogram,
labelled by cache type only. -/
def CacheUploadDurationUsec : MetricVec :=
  ⟨"buildbuddy", "remote_cache", "upload_duration_usec", [CacheTypeLabel]⟩

/-- `metrics.go` `BlobstoreReadCount`: counter of blobstore reads, labelled
by status and blobstore type. -/
def BlobstoreReadCount : MetricVec :=
  ⟨"buildbuddy", "blobstore", "read_count", [StatusLabel, BlobstoreTypeLabel]⟩

/-- `metrics.go` `BlobstoreReadSizeBytes`: per-read size histogram, labelled
by blobstore type only. -/
def BlobstoreReadSizeBytes : MetricVec :=
  ⟨"buildbuddy", "blobstore", "read_size_bytes", [BlobstoreTypeLabel]⟩

/-- `metrics.go` `BlobstoreReadDurationUsec`: per-read duration histogram,
labelled by blobstore type only. -/
def BlobstoreReadDurationUsec : MetricVec :=
  ⟨"buildbuddy", "blobstore", "read_duration_usec", [BlobstoreTypeLabel]⟩

/-- `metrics.go` `BlobstoreWriteCount`: counter of blobstore writes,
labelled by status and blobstore type. -/
def BlobstoreWriteCount : MetricVec :=
  ⟨"buildbuddy", "blobstore", "write_count", [StatusLabel, BlobstoreTypeLabel]⟩

/-- `metrics.go` `BlobstoreWriteSizeBytes`: per-write size histogram,
labelled by blobstore type only. -/
def BlobstoreWriteSizeBytes : MetricVec :=
  ⟨"buildbuddy", "blobstore", "write_size_bytes", [BlobstoreTypeLabel]⟩

/-- `metrics.go` `BlobstoreWriteDurationUsec`: per-write duration histogram,
labelled by blobstore type only. -/
def BlobstoreWriteDurationUsec : MetricVec :=
  ⟨"buildbuddy", "blobstore", "write_duration_usec", [BlobstoreTypeLabel]⟩

/-- `metrics.go` `BlobstoreDeleteCount`: counter of blobstore deletions,
labelled by status and blobstore type. -/
def BlobstoreDeleteCount : MetricVec :=
  ⟨"buildbuddy", "blobstore", "delete_count", [StatusLabel, BlobstoreTypeLabel]⟩

/-- `metrics.go` `BlobstoreDeleteDurationUsec`: per-deletion duration
histogram, labelled by blobstore type only. -/
def BlobstoreDeleteDurationUsec : MetricVec :=
  ⟨"buildbuddy", "blobstore", "delete_duration_usec", [BlobstoreTypeLabel]⟩

/-- The metric vectors through which remote-cache (CAS/AC) operations are
reported in `metrics.go`. -/
def cacheOpMetrics : List MetricVec :=
  [CacheEvents, CacheDownloadSizeBytes, CacheDownloadDurationUsec,
   CacheUploadSizeBytes, CacheUploadDurationUsec]

/-- The metric vectors through which blobstore operations are reported in
`metrics.go`. -/
def blobstoreOpMetrics : List MetricVec :=
  [BlobstoreReadCount, BlobstoreReadSizeBytes, BlobstoreReadDurationUsec,
   BlobstoreWriteCount, BlobstoreWriteSizeBytes, BlobstoreWriteDurationUsec,
   BlobstoreDeleteCount, BlobstoreDeleteDurationUsec]

/-- One cache operation as seen by the instrumentation: the tenant instance
it ran under, its cache type (`action` or `cas`) and its event type (`hit`,
`miss` or `upload`). -/
structure CacheOp where
  inst : String
  cache_type : String
  event_type : String
deriving DecidableEq, Repr

/-- The label-value record an operation contributes to the `CacheEvents`
counter: exactly the cache-type and event-type dimensions of `metrics.go`. -/
def observedRecord (op : CacheOp) : List (String × String) :=
  [(CacheTypeLabel, op.cache_type), (CacheEventTypeLabel, op.event_type)]

/-- The per-label `CacheEvents` count an operation history produces for a
given (cache type, event type) label pair. -/
def cacheEventCount (h : List CacheOp) (ct et : String) : Nat :=
  h.countP (fun op => op.cache_type == ct && op.event_type == et)

/-- Renaming of the instance field of an operation, leaving the reported
dimensions untouched. -/
def renameInst (f : String → String) (op : CacheOp) : CacheOp :=
  ⟨f op.inst, op.cache_type, op.event_type⟩

theorem compute_injective {b b' : List Nat} (h : compute b = compute b') : b = b' :=
  congrArg Digest.hash h

theorem CAS.lookup_mem {s : CAS} {d : Digest} {b : List Nat}
    (h : s.lookup d = some b) : (d, b) ∈ s.entries := by
  unfold CAS.lookup at h
  cases hf : s.entries.find? (fun e => e.1 == d) with
  | none => simp [hf] at h
  | some e =>
    have hmem := List.mem_of_find?_eq_some hf
    have hpred := List.find?_some hf
    simp only [beq_iff_eq] at hpred
    simp [hf] at h
    rw [← hpred, ← h]
    exact hmem

theorem CAS.contains_false_iff {s : CAS} {d : Digest} :
    s.contains d = false ↔ ∀ e ∈ s.entries, e.1 ≠ d := by
  unfold CAS.contains CAS.lookup
  cases hf : s.entries.find? (fun e => e.1 == d) with
  | none =>
    simp only [Option.map_none', Option.isSome_none, true_iff]
    intro e he
    have := List.find?_eq_none.mp hf e he
    simpa using this
  | some e =>
    have hmem := List.mem_of_find?_eq_some hf
    have hpred := List.find?_some hf
    simp only [beq_iff_eq] at hpred
    simp only [Option.map_some', Option.isSome_some]
    constructor
    · intro h; cases h
    · intro h; exact absurd hpred (h e hmem)

theorem CAS.lookup_of_wf {s : CAS} {d : Digest} {b : List Nat}
    (hwf : s.WF) (h : s.lookup d = some b) : compute b = d :=
  hwf.1 (d, b) (CAS.lookup_mem h)

theorem CAS.put_wf {s : CAS} {d : Digest} {b : List Nat} {i : String}
    (hwf : s.WF) : (s.put d b i).2.WF := by
  unfold CAS.put
  by_cases hd : compute b = d
  · by_cases hc : s.contains d
    · simpa [hd, hc] using hwf
    · simp only [hd, if_true, hc, if_false]
      constructor
      · intro e he
        rcases List.mem_cons.mp he with h1 | h2
        · rw [h1]; exact hd
        · exact hwf.1 e h2
      · refine List.Nodup.cons ?_ hwf.2
        intro hmem
        rcases List.mem_map.mp hmem with ⟨e, he, hfst⟩
        have := (CAS.contains_false_iff.mp (Bool.eq_false_iff.mpr hc)) e he
        exact this hfst
  · rw [if_neg hd]; exact hwf

theorem CAS.countKey_eq_one_aux {l : List (Digest × List Nat)} {d : Digest}
    (hnd : (l.map Prod.fst).Nodup)
    (h : (l.find? (fun e => e.1 == d)).isSome = true) :
    l.countP (fun e => e.1 == d) = 1 := by
  induction l with
  | nil => simp at h
  | cons e rest ih =>
    have hnd' := hnd
    rw [List.map_cons, List.nodup_cons] at hnd'
    by_cases he : e.1 = d
    · have hzero : rest.countP (fun x => x.1 == d) = 0 := by
        rw [List.countP_eq_zero]
        intro x hx
        simp only [beq_iff_eq]
        intro hxd
        exact hnd'.1 (List.mem_map.mpr ⟨x, hx, by rw [hxd, he]⟩)
      rw [List.countP_cons_of_pos]
      · rw [hzero]
      · simp [he]
    · rw [List.countP_cons_of_neg]
      · apply ih hnd'.2
        rw [List.find?_cons_of_neg] at h
        · exact h
        · simp [he]
      · simp [he]

theorem CAS.countKey_eq_one {s : CAS} {d : Digest}
    (hnd : (s.entries.map Prod.fst).Nodup) (h : s.contains d = true) :
    s.countKey d = 1 := by
  apply CAS.countKey_eq_one_aux hnd
  unfold CAS.contains CAS.lookup at h
  simpa using h

theorem CAS.put_contains {s : CAS} {b : List Nat} {i : String} :
    ((s.put (compute b) b i).2.contains (compute b)) = true := by
  unfold CAS.put
  rw [if_pos rfl]
  by_cases hc : s.contains (compute b) = true
  · rw [if_pos hc]; exact hc
  · rw [if_neg hc]
    unfold CAS.contains CAS.lookup
    rw [List.find?_cons_of_pos]
    · simp
    · simp

/-- C1: for every digest `d`, bytes `b` and instance, `CAS.put d b` fails
with `DigestMismatch` whenever `compute b ≠ d`, and the CAS state is
unchanged - nothing is stored under a digest that does not match the
bytes. -/
theorem cas_put_digest_mismatch (s : CAS) (d : Digest) (b : List Nat)
    (i : String) (h : compute b ≠ d) :
    s.put d b i = (.error .DigestMismatch, s) := by
  simp [CAS.put, h]

theorem cas_put_digest_mismatch_witness :
    CAS.empty.put (compute [1]) [2] "inst" =
      (.error .DigestMismatch, CAS.empty) :=
  cas_put_digest_mismatch CAS.empty (compute [1]) [2] "inst" (by decide)

/-- C4: for every CAS state and instance, the empty digest is never
reported missing by `find_missing`, the singleton query for it answers with
no backend call, and `get` resolves it to zero bytes with no backend
call. -/
theorem cas_empty_digest_always_present (s : CAS) (i : String) :
    (∀ ds : List Digest, emptyDigest ∉ (s.find_missing ds i).1) ∧
    s.find_missing [emptyDigest] i = ([], 0) ∧
    s.get emptyDigest i = (.ok [], 0) := by
  refine ⟨?_, ?_, ?_⟩
  · intro ds hmem
    rw [CAS.find_missing] at hmem
    simp only [List.mem_filter] at hmem
    have := hmem.1.2
    simp [emptyDigest, compute, Digest.is_empty] at this
  · simp [CAS.find_missing, emptyDigest, compute, Digest.is_empty]
  · simp [CAS.get, emptyDigest, compute, Digest.is_empty]

/-- C6: applying a chunk whose offset differs from the session's current
committed size fails with `InvalidOffset`, and the session (hence its
committed size) and the CAS state are both unchanged. -/
theorem upload_invalid_offset (cas : CAS) (s : UploadSession) (c : Chunk)
    (h : c.offset ≠ s.committed_size) :
    applyChunk cas s c = (.error .InvalidOffset, s, cas) := by
  simp [applyChunk, h]

theorem upload_invalid_offset_witness :
    applyChunk CAS.empty (newSession (compute [1]) "inst") ⟨5, [7], false⟩ =
      (.error .InvalidOffset, newSession (compute [1]) "inst", CAS.empty) :=
  upload_invalid_offset CAS.empty (newSession (compute [1]) "inst")
    ⟨5, [7], false⟩ (by decide)

theorem CAS.put_ok {s : CAS} {d : Digest} {b : List Nat} {i : String}
    (hd : compute b = d) : (s.put d b i).1 = .ok () := by
  unfold CAS.put
  rw [if_pos hd]
  by_cases hc : s.contains d = true
  · rw [if_pos hc]
  · rw [if_neg hc]

theorem CAS.put_noop_of_contains {s : CAS} {d : Digest} {b : List Nat}
    {i : String} (hd : compute b = d) (hc : s.contains d = true) :
    s.put d b i = (.ok (), s) := by
  unfold CAS.put
  rw [if_pos hd, if_pos hc]

/-- C2: for every well-formed CAS state, bytes `b` and instance,
`put (compute b) b` succeeds and a following `get (compute b)` succeeds and
returns exactly `b` (byte-exact round trip). -/
theorem cas_put_get_roundtrip (s : CAS) (b : List Nat) (i : String)
    (hwf : s.WF) :
    (s.put (compute b) b i).1 = .ok () ∧
    ((s.put (compute b) b i).2.get (compute b) i).1 = .ok b := by
  refine ⟨CAS.put_ok rfl, ?_⟩
  have hwf' : (s.put (compute b) b i).2.WF := CAS.put_wf hwf
  have hc' : (s.put (compute b) b i).2.contains (compute b) = true :=
    CAS.put_contains
  unfold CAS.get
  by_cases hemp : (compute b).is_empty = true
  · rw [if_pos hemp]
    have hlen : b.length = 0 := by
      simpa [compute, Digest.is_empty] using hemp
    rw [List.eq_nil_of_length_eq_zero hlen]
  · rw [if_neg hemp]
    obtain ⟨b2, hb2⟩ : ∃ b2, (s.put (compute b) b i).2.lookup (compute b) = some b2 := by
      unfold CAS.contains at hc'
      exact Option.isSome_iff_exists.mp hc'
    have hbb : b2 = b := compute_injective (CAS.lookup_of_wf hwf' hb2)
    rw [hb2, hbb]
    simp [compute]

theorem cas_put_get_roundtrip_witness :
    (CAS.empty.put (compute [1, 2, 3]) [1, 2, 3] "inst").1 = .ok () ∧
    ((CAS.empty.put (compute [1, 2, 3]) [1, 2, 3] "inst").2.get
        (compute [1, 2, 3]) "inst").1 = .ok [1, 2, 3] :=
  cas_put_get_roundtrip CAS.empty [1, 2, 3] "inst" (by decide)

/-- C3: for every well-formed CAS state and valid pair
`(d, b)` with `d = compute b`, putting twice succeeds both times, the
second call is a no-op on the state, and exactly one entry is stored for
`d`. -/
theorem cas_put_idempotent (s : CAS) (d : Digest) (b : List Nat) (i : String)
    (hwf : s.WF) (hd : compute b = d) :
    (s.put d b i).1 = .ok () ∧
    ((s.put d b i).2.put d b i).1 = .ok () ∧
    ((s.put d b i).2.put d b i).2 = (s.put d b i).2 ∧
    ((s.put d b i).2.put d b i).2.countKey d = 1 := by
  subst hd
  have hc1 : (s.put (compute b) b i).2.contains (compute b) = true :=
    CAS.put_contains
  have hwf1 : (s.put (compute b) b i).2.WF := CAS.put_wf hwf
  have hnoop :
      (s.put (compute b) b i).2.put (compute b) b i =
        (.ok (), (s.put (compute b) b i).2) :=
    CAS.put_noop_of_contains rfl hc1
  refine ⟨CAS.put_ok rfl, ?_, ?_, ?_⟩
  · rw [hnoop]
  · rw [hnoop]
  · rw [hnoop]
    exact CAS.countKey_eq_one hwf1.2 hc1

theorem cas_put_idempotent_witness :
    (CAS.empty.put (compute [4, 5]) [4, 5] "inst").1 = .ok () ∧
    ((CAS.empty.put (compute [4, 5]) [4, 5] "inst").2.put
        (compute [4, 5]) [4, 5] "inst").1 = .ok () ∧
    ((CAS.empty.put (compute [4, 5]) [4, 5] "inst").2.put
        (compute [4, 5]) [4, 5] "inst").2 =
      (CAS.empty.put (compute [4, 5]) [4, 5] "inst").2 ∧
    ((CAS.empty.put (compute [4, 5]) [4, 5] "inst").2.put
        (compute [4, 5]) [4, 5] "inst").2.countKey (compute [4, 5]) = 1 :=
  cas_put_idempotent CAS.empty (compute [4, 5]) [4, 5] "inst" (by decide) rfl

/-- Concatenation of the data pieces of a chunking. -/
def joinBytes : List (List Nat) → List Nat
  | [] => []
  | p :: rest => p ++ joinBytes rest
theorem applyChunk_step (cas : CAS) (t : Digest) (i : String)
    (buf : List Nat) (n : Nat) (dat : List Nat) (fl : Bool) :
    applyChunk cas ⟨t, i, buf, n⟩ ⟨n, dat, fl⟩ =
      if fl then
        ((cas.put t (buf ++ dat) i).1, ⟨t, i, buf ++ dat, n + dat.length⟩,
         (cas.put t (buf ++ dat) i).2)
      else (.ok (), ⟨t, i, buf ++ dat, n + dat.length⟩, cas) := by
  unfold applyChunk
  rw [if_neg (by simp)]

theorem uploadChunks_cons_ok (cas : CAS) (s : UploadSession) (c : Chunk)
    (cs : List Chunk) (s' : UploadSession) (cas' : CAS)
    (hac : applyChunk cas s c = (.ok (), s', cas')) :
    uploadChunks cas s (c :: cs) = uploadChunks cas' s' cs := by
  conv_lhs => unfold uploadChunks
  rw [hac]

theorem uploadChunks_cons_error (cas : CAS) (s : UploadSession) (c : Chunk)
    (cs : List Chunk) (e : CacheError) (s' : UploadSession) (cas' : CAS)
    (hac : applyChunk cas s c = (.error e, s', cas')) :
    uploadChunks cas s (c :: cs) = (.error e, s', cas') := by
  conv_lhs => unfold uploadChunks
  rw [hac]

theorem uploadChunks_mkChunksFrom (ps : List (List Nat)) (hne : ps ≠ []) :
    ∀ (cas : CAS) (t : Digest) (i : String) (buf : List Nat),
    uploadChunks cas ⟨t, i, buf, buf.length⟩ (mkChunksFrom buf.length ps) =
      ((cas.put t (buf ++ joinBytes ps) i).1,
       ⟨t, i, buf ++ joinBytes ps, buf.length + (joinBytes ps).length⟩,
       (cas.put t (buf ++ joinBytes ps) i).2) := by
  induction ps with
  | nil => exact absurd rfl hne
  | cons p rest ih =>
    intro cas t i buf
    cases rest with
    | nil =>
      show uploadChunks cas ⟨t, i, buf, buf.length⟩ [⟨buf.length, p, true⟩] = _
      rcases hput : cas.put t (buf ++ p) i with ⟨r, cas2⟩
      have hstep : applyChunk cas ⟨t, i, buf, buf.length⟩ ⟨buf.length, p, true⟩ =
          (r, ⟨t, i, buf ++ p, buf.length + p.length⟩, cas2) := by
        rw [applyChunk_step, if_pos rfl, hput]
      cases r with
      | ok u =>
        cases u
        rw [uploadChunks_cons_ok _ _ _ _ _ _ hstep]
        unfold uploadChunks
        simp [joinBytes, hput]
      | error e =>
        rw [uploadChunks_cons_error _ _ _ _ _ _ _ hstep]
        simp [joinBytes, hput]
    | cons q rest2 =>
      show uploadChunks cas ⟨t, i, buf, buf.length⟩
          (⟨buf.length, p, false⟩ ::
            mkChunksFrom (buf.length + p.length) (q :: rest2)) = _
      have hstep : applyChunk cas ⟨t, i, buf, buf.length⟩ ⟨buf.length, p, false⟩ =
          (.ok (), ⟨t, i, buf ++ p, buf.length + p.length⟩, cas) := by
        rw [applyChunk_step, if_neg Bool.false_ne_true]
      rw [uploadChunks_cons_ok _ _ _ _ _ _ hstep]
      have hx := ih (by simp) cas t i (buf ++ p)
      rw [List.length_append] at hx
      rw [hx]
      simp [joinBytes, List.append_assoc, Nat.add_assoc]

theorem uploadChunks_canonical (cas : CAS) (d : Digest) (i : String)
    (b : List Nat) (ps : List (List Nat)) (hne : ps ≠ [])
    (hj : joinBytes ps = b) :
    uploadChunks cas (newSession d i) (mkChunksFrom 0 ps) =
      ((cas.put d b i).1, ⟨d, i, b, b.length⟩, (cas.put d b i).2) := by
  have hx := uploadChunks_mkChunksFrom ps hne cas d i []
  simp only [List.length_nil, List.nil_append, Nat.zero_add] at hx
  rw [hj] at hx
  exact hx

/-- C5: resumable upload is chunk-boundary invariant - for bytes `b` and any
split point `0 < k < b.length`, uploading `b` in two chunks at offsets `0`
and `k` gives the same outcome, final session and stored CAS state as a
single-chunk upload, and any two chunkings of `b` give identical results. -/
theorem upload_chunk_boundary_invariant (cas : CAS) (d : Digest) (i : String)
    (b : List Nat) (k : Nat) (_h0 : 0 < k) (hk : k < b.length) :
    (uploadChunks cas (newSession d i)
        [⟨0, b.take k, false⟩, ⟨k, b.drop k, true⟩] =
      uploadChunks cas (newSession d i) [⟨0, b, true⟩]) ∧
    (∀ ps qs : List (List Nat), ps ≠ [] → qs ≠ [] →
      joinBytes ps = b → joinBytes qs = b →
      uploadChunks cas (newSession d i) (mkChunksFrom 0 ps) =
        uploadChunks cas (newSession d i) (mkChunksFrom 0 qs)) := by
  constructor
  · have h1 : [(⟨0, b.take k, false⟩ : Chunk), ⟨k, b.drop k, true⟩] =
        mkChunksFrom 0 [b.take k, b.drop k] := by
      show _ = [(⟨0, b.take k, false⟩ : Chunk),
                ⟨0 + (b.take k).length, b.drop k, true⟩]
      simp [List.length_take, Nat.min_eq_left hk.le]
    have h2 : [(⟨0, b, true⟩ : Chunk)] = mkChunksFrom 0 [b] := rfl
    rw [h1, h2,
        uploadChunks_canonical cas d i b [b.take k, b.drop k] (by simp)
          (by simp [joinBytes]),
        uploadChunks_canonical cas d i b [b] (by simp) (by simp [joinBytes])]
  · intro ps qs hps hqs hjp hjq
    rw [uploadChunks_canonical cas d i b ps hps hjp,
        uploadChunks_canonical cas d i b qs hqs hjq]

theorem upload_chunk_boundary_invariant_witness :
    (uploadChunks CAS.empty (newSession (compute [1, 2, 3]) "inst")
        [⟨0, [1, 2, 3].take 1, false⟩, ⟨1, [1, 2, 3].drop 1, true⟩] =
      uploadChunks CAS.empty (newSession (compute [1, 2, 3]) "inst")
        [⟨0, [1, 2, 3], true⟩]) ∧
    (∀ ps qs : List (List Nat), ps ≠ [] → qs ≠ [] →
      joinBytes ps = [1, 2, 3] → joinBytes qs = [1, 2, 3] →
      uploadChunks CAS.empty (newSession (compute [1, 2, 3]) "inst")
          (mkChunksFrom 0 ps) =
        uploadChunks CAS.empty (newSession (compute [1, 2, 3]) "inst")
          (mkChunksFrom 0 qs)) :=
  upload_chunk_boundary_invariant CAS.empty (compute [1, 2, 3]) "inst"
    [1, 2, 3] 1 (by decide) (by decide)

theorem find_filter_eq {α : Type} (l : List α) (p q : α → Bool)
    (h : ∀ e, p e = true → q e = true) :
    (l.filter q).find? p = l.find? p := by
  induction l with
  | nil => rfl
  | cons a l ih =>
    by_cases hq : q a = true
    · rw [List.filter_cons_of_pos hq]
      by_cases hp : p a = true
      · rw [List.find?_cons_of_pos _ hp, List.find?_cons_of_pos _ hp]
      · rw [List.find?_cons_of_neg _ hp, List.find?_cons_of_neg _ hp, ih]
    · rw [List.filter_cons_of_neg hq, ih,
          List.find?_cons_of_neg _ (fun hpa => hq (h a hpa))]

/-- C7: with `MissingCASReference` validation enabled, `set_result` for a
result referencing an output-file digest that is not present in CAS fails
with `MissingCASReference`, and both the AC and the CAS states are
unchanged by the failed call. -/
theorem ac_set_result_missing_reference (ac : AC) (cas : CAS) (d : Digest)
    (r : ActionResult) (i : String)
    (h : ∃ p ∈ r.output_file_digests, cas.present p.2 = false) :
    ac.set_result cas d r i true = (.error .MissingCASReference, ac, cas) := by
  have hcond :
      (true && r.output_file_digests.any (fun p => !(cas.present p.2))) = true := by
    rw [Bool.true_and, List.any_eq_true]
    rcases h with ⟨p, hp, hpres⟩
    exact ⟨p, hp, by rw [hpres]; rfl⟩
  unfold AC.set_result
  rw [if_pos hcond]

theorem ac_set_result_missing_reference_witness :
    AC.empty.set_result CAS.empty (compute [1])
        ⟨compute [1], [("out", compute [9])], 0, emptyDigest, emptyDigest⟩
        "inst" true =
      (.error .MissingCASReference, AC.empty, CAS.empty) :=
  ac_set_result_missing_reference AC.empty CAS.empty (compute [1])
    ⟨compute [1], [("out", compute [9])], 0, emptyDigest, emptyDigest⟩
    "inst" (by decide)

/-- C8: after a successful `set_result` for `(action_digest, instance)`,
`get_result` with the same pair returns exactly the stored record, while
`get_result` for any other instance is unaffected - in particular it still
returns `NotFound` when no record existed for that other instance. -/
theorem ac_instance_isolation (ac : AC) (cas : CAS) (d : Digest)
    (r : ActionResult) (i i' : String) (v : Bool) (hne : i' ≠ i)
    (hok : (ac.set_result cas d r i v).1 = .ok ()) :
    ((ac.set_result cas d r i v).2.1.get_result d i = .ok r) ∧
    ((ac.set_result cas d r i v).2.1.get_result d i' = ac.get_result d i') ∧
    (ac.get_result d i' = .error .NotFound →
      (ac.set_result cas d r i v).2.1.get_result d i' = .error .NotFound) := by
  unfold AC.set_result at hok ⊢
  by_cases hcond :
      (v && r.output_file_digests.any (fun p => !(cas.present p.2))) = true
  · rw [if_pos hcond] at hok
    simp at hok
  · rw [if_neg hcond]
    have hsame :
        (⟨((i, d), r) ::
            ac.entries.filter (fun e => !(e.1 == (i, d)))⟩ : AC).get_result d i' =
          ac.get_result d i' := by
      unfold AC.get_result
      dsimp only
      rw [List.find?_cons_of_neg _ (by simp [Ne.symm hne])]
      rw [find_filter_eq]
      intro e he
      simp only [beq_iff_eq] at he
      rw [he]
      simp [hne]
    refine ⟨?_, hsame, fun hnf => by rw [hsame, hnf]⟩
    unfold AC.get_result
    dsimp only
    rw [List.find?_cons_of_pos _ (by simp)]

theorem ac_instance_isolation_witness :
    ((AC.empty.set_result CAS.empty (compute [1])
        ⟨compute [2], [], 0, emptyDigest, emptyDigest⟩ "a" false).2.1.get_result
          (compute [1]) "a" =
      .ok ⟨compute [2], [], 0, emptyDigest, emptyDigest⟩) ∧
    ((AC.empty.set_result CAS.empty (compute [1])
        ⟨compute [2], [], 0, emptyDigest, emptyDigest⟩ "a" false).2.1.get_result
          (compute [1]) "b" =
      AC.empty.get_result (compute [1]) "b") ∧
    (AC.empty.get_result (compute [1]) "b" = .error .NotFound →
      (AC.empty.set_result CAS.empty (compute [1])
          ⟨compute [2], [], 0, emptyDigest, emptyDigest⟩ "a" false).2.1.get_result
            (compute [1]) "b" =
        .error .NotFound) :=
  ac_instance_isolation AC.empty CAS.empty (compute [1])
    ⟨compute [2], [], 0, emptyDigest, emptyDigest⟩ "a" "b" false
    (by decide) rfl

/-- C9 counterexample: no cache or blobstore metric vector in `metrics.go`
carries the event type together with a status label - in particular the
`CacheEvents` counter, the only collector carrying the `hit|miss|upload`
event type, has no status (and no byte-size or duration) dimension - so no
single per-operation report contains all of operation kind, cache type,
event type, byte size, duration and status. -/
theorem cache_event_record_fields_counterexample :
    StatusLabel ∉ CacheEvents.labels ∧
    (∀ m ∈ cacheOpMetrics ++ blobstoreOpMetrics,
      ¬(CacheEventTypeLabel ∈ m.labels ∧ StatusLabel ∈ m.labels)) := by
  decide

/-- C9 (amended): CAS/AC and blobstore operations are reported through
separate collectors with the label sets declared in `metrics.go`: an event
counter partitioned by cache type and event type, per-cache-type size and
duration histograms, blobstore counters partitioned by status and blobstore
type, and per-blobstore-type size and duration histograms. -/
theorem cache_metric_label_sets :
    CacheEvents.labels = [CacheTypeLabel, CacheEventTypeLabel] ∧
    CacheDownloadSizeBytes.labels = [CacheTypeLabel] ∧
    CacheDownloadDurationUsec.labels = [CacheTypeLabel] ∧
    CacheUploadSizeBytes.labels = [CacheTypeLabel] ∧
    CacheUploadDurationUsec.labels = [CacheTypeLabel] ∧
    BlobstoreReadCount.labels = [StatusLabel, BlobstoreTypeLabel] ∧
    BlobstoreWriteCount.labels = [StatusLabel, BlobstoreTypeLabel] ∧
    BlobstoreDeleteCount.labels = [StatusLabel, BlobstoreTypeLabel] ∧
    BlobstoreReadSizeBytes.labels = [BlobstoreTypeLabel] ∧
    BlobstoreReadDurationUsec.labels = [BlobstoreTypeLabel] ∧
    BlobstoreWriteSizeBytes.labels = [BlobstoreTypeLabel] ∧
    BlobstoreWriteDurationUsec.labels = [BlobstoreTypeLabel] ∧
    BlobstoreDeleteDurationUsec.labels = [BlobstoreTypeLabel] :=
  ⟨rfl, rfl, rfl, rfl, rfl, rfl, rfl, rfl, rfl, rfl, rfl, rfl, rfl⟩

/-- C10: cache-event observations are partitioned by exactly the two
dimensions of `CacheEvents` in `metrics.go` - cache type and event type -
with no instance label, so renaming the instances of an operation history
leaves every per-label cache-event count unchanged. -/
theorem cache_events_two_dimensional :
    CacheEvents.labels = [CacheTypeLabel, CacheEventTypeLabel] ∧
    CacheEvents.labels.length = 2 ∧
    "instance" ∉ CacheEvents.labels ∧
    "instance_name" ∉ CacheEvents.labels ∧
    (∀ op : CacheOp, (observedRecord op).map Prod.fst = CacheEvents.labels) ∧
    (∀ (f : String → String) (h : List CacheOp) (ct et : String),
      cacheEventCount (h.map (renameInst f)) ct et = cacheEventCount h ct et) := by
  refine ⟨rfl, rfl, by decide, by decide, fun op => rfl, ?_⟩
  intro f h ct et
  unfold cacheEventCount
  rw [List.countP_map]
  rfl
